import Mathlib

/-!
Verification of the pattern-based block relocator in
`src/shockwave/fix_benchmarks.py` (the `watt` repository).

The Python source is embedded shallowly: strings are `List Char`, the
file is split into lines on the newline character exactly as
`content.split('\n')` does, and every loop of the source is rendered as
a structurally recursive function whose fuel argument is each loop
trip-count bound (so all definitions compute by kernel reduction).  A
Python `IndexError` (reading `lines[i]` past the end) is modelled by
returning `none`; every other path returns `some` output.
-/

set_option maxRecDepth 100000

namespace Watt

/-- A line of text, as a list of characters. -/
abbrev Line := List Char

/-- The anchor substring recognized by the scanner
(`'for i := 0; i < b.N; i++' in line`). -/
def anchorPat : Line := ("for i := 0; i < b.N; i++").data

/-- The handler-definition search substring
(`'handler := func(req *Request, rw *ResponseWriter)' in lines[j]`). -/
def handlerPat : Line := ("handler := func(req *Request, rw *ResponseWriter)").data

/-- The old construction-call substring (`'NewConnection(mockConn, config)'`). -/
def connOldPat : Line := ("NewConnection(mockConn, config)").data

/-- The new construction-call substring, carrying the handler argument. -/
def connNewPat : Line := ("NewConnection(mockConn, config, handler)").data

/-- The suppression substring used in the re-emission loop
(`'handler := func' in lines[i]`). -/
def handlerSkipPat : Line := ("handler := func").data

/-- The old usage-call substring (`'conn.Serve(handler)'`). -/
def serveOldPat : Line := ("conn.Serve(handler)").data

/-- The new usage-call substring (`'conn.Serve()'`). -/
def serveNewPat : Line := ("conn.Serve()").data

/-- Python whitespace predicate used by `str.strip()` (ASCII range). -/
def pyWS (c : Char) : Bool :=
  c = ' ' || c = '\t' || c = '\n' || c = '\r' || c = '\x0b' || c = '\x0c'

/-- Python `s.strip()`: drop whitespace from both ends. -/
def pyStrip (l : Line) : Line :=
  ((l.dropWhile pyWS).reverse.dropWhile pyWS).reverse

/-- One step of Python `str.replace`: scan left to right, replacing each
non-overlapping occurrence of `old` by `nw`.  The fuel is the length of
the scanned string; each step consumes at least one character when
`old` is nonempty, so the fuel never runs out in `pyReplace`. -/
def pyReplaceFuel (old nw : Line) : Nat → Line → Line
  | 0, s => s
  | _ + 1, [] => []
  | fuel + 1, c :: rest =>
    if old ≠ [] ∧ old <+: (c :: rest) then
      nw ++ pyReplaceFuel old nw fuel ((c :: rest).drop old.length)
    else c :: pyReplaceFuel old nw fuel rest

/-- Python `s.replace(old, nw)` (for nonempty `old`, which is the only
way the source uses it). -/
def pyReplace (s old nw : Line) : Line := pyReplaceFuel old nw s.length s

/-- Python `'\n'.join(ls)`. -/
def joinLines (ls : List Line) : Line := List.intercalate ['\n'] ls

/-- Python `content.split('\n')`. -/
def splitLines (s : Line) : List Line := s.splitOn '\n'

/-- Net brace count of one line:
`lines[k].count('\x7b') - lines[k].count('\x7d')`. -/
def braceNet (l : Line) : Int := (l.count '\x7b' : Int) - (l.count '\x7d' : Int)

/-- The brace-counting `for k in range(j, min(j + 15, len(lines)))` loop of
the source.  `stop` is `min (j + 15) lines.length`; the fuel (15 at the
call site) bounds the trip count.  Returns `some (handler_def,
serve_line_idx)` when the block closes (`brace_count == 0 and '\x7b' in
lines[k]`), `none` when the loop runs out of lines. -/
def braceLoop (lines : List Line) (stop : Nat) : Nat → Nat → Int → List Line →
    Option (Line × Nat)
  | 0, _, _, _ => none
  | fuel + 1, k, cnt, acc =>
    if k < stop then
      match lines.get? k with
      | none => none
      | some l =>
        let cnt' := cnt + braceNet l
        let acc' := acc ++ [l]
        if cnt' = 0 ∧ '\x7b' ∈ l then some (joinLines acc', k + 2)
        else braceLoop lines stop fuel (k + 1) cnt' acc'
    else none

/-- Handler-block extraction started at line `j` (the body of the
`if 'handler := func(...)' in lines[j]` branch of the source). -/
def extractHandler (lines : List Line) (j : Nat) : Option (Line × Nat) :=
  braceLoop lines (min (j + 15) lines.length) 15 j 0 []

/-- The look-ahead `while j < len(lines) and j < i + 20` loop of the
source.  The first component is `(handler_def, serve_line_idx)` when
both were set, the second is `newconn_line_idx`.  Finding the
handler-definition substring breaks the loop (exactly as the source
does), whether or not the brace count closes. -/
def lookAhead (lines : List Line) (i : Nat) : Nat → Nat → Option Nat →
    Option (Line × Nat) × Option Nat
  | 0, _, nconn => (none, nconn)
  | fuel + 1, j, nconn =>
    if j < lines.length ∧ j < i + 20 then
      match lines.get? j with
      | none => (none, nconn)
      | some l =>
        if handlerPat <:+: l then (extractHandler lines j, nconn)
        else if connOldPat <:+: l then lookAhead lines i fuel (j + 1) (some j)
        else lookAhead lines i fuel (j + 1) nconn
    else (none, nconn)

/-- The re-emission `while i <= serve_line_idx` loop of the source.
Reading `lines[i]` past the end raises `IndexError` in Python; that is
the `none` result here.  Python evaluates `lines[i]` in every branch
(the `elif` conditions and both `replace` calls), so the subscript is
taken before branching. -/
def rewriteLoop (lines : List Line) (serveIdx nconn : Nat) : Nat → Nat → List Line →
    Option (List Line)
  | 0, _, _ => none
  | fuel + 1, i, acc =>
    if i ≤ serveIdx then
      match lines.get? i with
      | none => none
      | some l =>
        if i = nconn then
          rewriteLoop lines serveIdx nconn fuel (i + 1)
            (acc ++ [pyReplace l connOldPat connNewPat])
        else if handlerSkipPat <:+: l then
          rewriteLoop lines serveIdx nconn fuel (i + 1) acc
        else if serveOldPat <:+: l then
          rewriteLoop lines serveIdx nconn fuel (i + 1)
            (acc ++ [pyReplace l serveOldPat serveNewPat])
        else rewriteLoop lines serveIdx nconn fuel (i + 1) (acc ++ [l])
    else some acc

/-- The outer `while i < len(lines)` scan of `fix_benchmark_pattern`.
The `if handler_def and newconn_line_idx` test is Python truthiness:
a set `handler_def` must be a nonempty string and a set
`newconn_line_idx` must be nonzero.  After the re-emission loop the
cursor always stands at `serve_line_idx + 1` (the loop body runs at
least once because `serve_line_idx ≥ i + 3`).  Fuel is the line count;
the cursor strictly increases each iteration, so it suffices. -/
def mainLoop (lines : List Line) : Nat → Nat → List Line → Option (List Line)
  | 0, i, acc => if i < lines.length then none else some acc
  | fuel + 1, i, acc =>
    match lines.get? i with
    | none => some acc
    | some line =>
      if anchorPat <:+: line then
        match lookAhead lines i 20 (i + 1) none with
        | (some (hdef, serveIdx), some n) =>
          if hdef ≠ [] ∧ n ≠ 0 then
            match rewriteLoop lines serveIdx n (serveIdx + 1) (i + 1)
                (acc ++ ['\t' :: pyStrip hdef, [], line]) with
            | none => none
            | some acc2 => mainLoop lines fuel (serveIdx + 1) acc2
          else mainLoop lines fuel (i + 1) (acc ++ [line])
        | _ => mainLoop lines fuel (i + 1) (acc ++ [line])
      else mainLoop lines fuel (i + 1) (acc ++ [line])

/-- `fix_benchmark_pattern(content)`: split into lines, scan, rejoin.
`none` models an uncaught `IndexError`. -/
def fix_benchmark_pattern (content : Line) : Option Line :=
  let lines := splitLines content
  (mainLoop lines lines.length 0 []).map joinLines

/-- Observable outcome of running `main`: a usage error (usage message,
exit status 1, no file touched), a completed run (file overwritten with
the given text, confirmation printed, exit status 0), or an uncaught
exception from the rewrite (raised after the read, before the write). -/
inductive MainOutcome
  | usage
  | ok (written : Line)
  | crash
deriving DecidableEq

/-- The `main()` entry point: `argc` is `len(sys.argv)` (program name
included), `fileContent` the text of the named file.  With the wrong
argument count it prints usage and exits 1 before any file access;
otherwise it reads, rewrites and overwrites the file. -/
def main (argc : Nat) (fileContent : Line) : MainOutcome :=
  if argc ≠ 2 then .usage
  else
    match fix_benchmark_pattern fileContent with
    | some out => .ok out
    | none => .crash

/-- Whether line `k` of the file matches the anchor pattern. -/
def anchorAt (lines : List Line) (k : Nat) : Bool :=
  match lines.get? k with
  | some l => decide (anchorPat <:+: l)
  | none => false

/-- Whether line `j` of the file matches the handler-definition pattern. -/
def handlerAt (lines : List Line) (j : Nat) : Bool :=
  match lines.get? j with
  | some l => decide (handlerPat <:+: l)
  | none => false

/-- Whether the look-ahead from anchor `i` fully matches the pattern, i.e.
whether the `if handler_def and newconn_line_idx` test of the source
succeeds at this anchor. -/
def matchFound (lines : List Line) (i : Nat) : Bool :=
  match lookAhead lines i 20 (i + 1) none with
  | (some (hdef, _), some n) => !hdef.isEmpty && n != 0
  | _ => false

/-- Cumulative brace depth of lines `j` through `e` inclusive, the sum the
brace-counting loop accumulates. -/
def depthSlice (lines : List Line) (j e : Nat) : Int :=
  (((lines.drop j).take (e + 1 - j)).map braceNet).sum

section StepEquations

theorem braceLoop_step (lines : List Line) (stop fuel k : Nat) (cnt : Int)
    (acc : List Line) :
    braceLoop lines stop (fuel + 1) k cnt acc =
      (if k < stop then
        match lines.get? k with
        | none => none
        | some l =>
          if cnt + braceNet l = 0 ∧ '\x7b' ∈ l then
            some (joinLines (acc ++ [l]), k + 2)
          else braceLoop lines stop fuel (k + 1) (cnt + braceNet l) (acc ++ [l])
      else none) := rfl

theorem lookAhead_step (lines : List Line) (i fuel j : Nat) (nconn : Option Nat) :
    lookAhead lines i (fuel + 1) j nconn =
      (if j < lines.length ∧ j < i + 20 then
        match lines.get? j with
        | none => (none, nconn)
        | some l =>
          if handlerPat <:+: l then (extractHandler lines j, nconn)
          else if connOldPat <:+: l then lookAhead lines i fuel (j + 1) (some j)
          else lookAhead lines i fuel (j + 1) nconn
      else (none, nconn)) := rfl

theorem rewriteLoop_step (lines : List Line) (serveIdx nconn fuel i : Nat)
    (acc : List Line) :
    rewriteLoop lines serveIdx nconn (fuel + 1) i acc =
      (if i ≤ serveIdx then
        match lines.get? i with
        | none => none
        | some l =>
          if i = nconn then
            rewriteLoop lines serveIdx nconn fuel (i + 1)
              (acc ++ [pyReplace l connOldPat connNewPat])
          else if handlerSkipPat <:+: l then
            rewriteLoop lines serveIdx nconn fuel (i + 1) acc
          else if serveOldPat <:+: l then
            rewriteLoop lines serveIdx nconn fuel (i + 1)
              (acc ++ [pyReplace l serveOldPat serveNewPat])
          else rewriteLoop lines serveIdx nconn fuel (i + 1) (acc ++ [l])
      else some acc) := rfl

theorem mainLoop_step (lines : List Line) (fuel i : Nat) (acc : List Line) :
    mainLoop lines (fuel + 1) i acc =
      (match lines.get? i with
      | none => some acc
      | some line =>
        if anchorPat <:+: line then
          match lookAhead lines i 20 (i + 1) none with
          | (some (hdef, serveIdx), some n) =>
            if hdef ≠ [] ∧ n ≠ 0 then
              match rewriteLoop lines serveIdx n (serveIdx + 1) (i + 1)
                  (acc ++ ['\t' :: pyStrip hdef, [], line]) with
              | none => none
              | some acc2 => mainLoop lines fuel (serveIdx + 1) acc2
            else mainLoop lines fuel (i + 1) (acc ++ [line])
          | _ => mainLoop lines fuel (i + 1) (acc ++ [line])
        else mainLoop lines fuel (i + 1) (acc ++ [line])) := rfl

theorem mainLoop_zero (lines : List Line) (i : Nat) (acc : List Line) :
    mainLoop lines 0 i acc = if i < lines.length then none else some acc := rfl

end StepEquations

section TextLemmas

theorem joinLines_splitLines (s : Line) : joinLines (splitLines s) = s := by
  have h := @List.intercalate_splitOn Char s '\n' _
  simpa [joinLines, splitLines] using h

theorem splitLines_joinLines (ls : List Line) (h0 : ls ≠ [])
    (h : ∀ l ∈ ls, '\n' ∉ l) : splitLines (joinLines ls) = ls := by
  have hh := @List.splitOn_intercalate Char ls _ '\n' h h0
  simpa [joinLines, splitLines] using hh

theorem joinLines_single (l : Line) : joinLines [l] = l := by
  simp [joinLines, List.intercalate]

theorem get?_append_offset (l₁ l₂ : List Line) (m : Nat) :
    (l₁ ++ l₂).get? (l₁.length + m) = l₂.get? m := by
  simp [List.get?_eq_getElem?,
    List.getElem?_append_right (Nat.le_add_right l₁.length m)]

end TextLemmas

section ReplaceLemmas

theorem pyReplaceFuel_no_occurrence (old nw : Line) :
    ∀ fuel s, ¬ old <:+: s → pyReplaceFuel old nw fuel s = s
  | 0, s, _ => rfl
  | _ + 1, [], _ => rfl
  | fuel + 1, c :: rest, h => by
    have hp : ¬ (old ≠ [] ∧ old <+: (c :: rest)) := by
      rintro ⟨-, hpre⟩; exact h hpre.isInfix
    rw [pyReplaceFuel, if_neg hp,
      pyReplaceFuel_no_occurrence old nw fuel rest
        (fun hinf => h (hinf.trans (List.suffix_cons c rest).isInfix))]

theorem pyReplace_first (old nw : Line) (hne : old ≠ []) :
    ∀ a b, (∀ p, p < a.length → ¬ old <+: ((a ++ old ++ b).drop p)) →
      ¬ old <:+: b → pyReplace (a ++ old ++ b) old nw = a ++ nw ++ b := by
  intro a
  induction a with
  | nil =>
    intro b _ hb
    obtain ⟨o, old', rfl⟩ : ∃ o old', old = o :: old' := by
      cases old with
      | nil => exact absurd rfl hne
      | cons o t => exact ⟨o, t, rfl⟩
    have hsplit : ([] : Line) ++ (o :: old') ++ b = o :: (old' ++ b) := by simp
    rw [hsplit]
    have hcond : (o :: old') ≠ [] ∧ (o :: old') <+: (o :: (old' ++ b)) := by
      refine ⟨by simp, ?_⟩
      have h := List.prefix_append (o :: old') b
      rw [List.cons_append] at h
      exact h
    show pyReplaceFuel (o :: old') nw ((o :: (old' ++ b)).length) (o :: (old' ++ b)) =
      [] ++ nw ++ b
    rw [List.length_cons, pyReplaceFuel, if_pos hcond]
    have hdrop : (o :: (old' ++ b)).drop (o :: old').length = b := by
      have h := List.drop_left (o :: old') b
      rw [List.cons_append] at h
      exact h
    rw [hdrop, pyReplaceFuel_no_occurrence (o :: old') nw _ b hb]
    simp
  | cons c a ih =>
    intro b hfst hb
    have hsplit : (c :: a) ++ old ++ b = c :: (a ++ old ++ b) := by simp
    rw [hsplit]
    have hcond : ¬ (old ≠ [] ∧ old <+: (c :: (a ++ old ++ b))) := by
      rintro ⟨-, hpre⟩
      have h0 := hfst 0 (by simp)
      rw [hsplit] at h0
      exact h0 (by simpa using hpre)
    show pyReplaceFuel old nw ((c :: (a ++ old ++ b)).length) (c :: (a ++ old ++ b)) =
      (c :: a) ++ nw ++ b
    rw [List.length_cons, pyReplaceFuel, if_neg hcond]
    have hrec := ih b (fun p hp => by
      have := hfst (p + 1) (by simpa using Nat.succ_lt_succ hp)
      rw [hsplit] at this
      simpa using this) hb
    rw [show pyReplaceFuel old nw (a ++ old ++ b).length (a ++ old ++ b) =
        pyReplace (a ++ old ++ b) old nw from rfl, hrec]
    simp

end ReplaceLemmas

section StripLemmas

theorem dropWhile_append_ws (I R : Line) (hI : ∀ c ∈ I, pyWS c = true) :
    (I ++ R).dropWhile pyWS = R.dropWhile pyWS := by
  induction I with
  | nil => rfl
  | cons c t ih =>
    simp only [List.cons_append, List.dropWhile_cons, hI c (by simp), if_true]
    exact ih (fun x hx => hI x (by simp [hx]))

theorem rstrip_append_of_last (A B : Line) (c : Char) (t : Line)
    (hB : B.reverse = c :: t) (hc : pyWS c = false) :
    ((A ++ B).reverse.dropWhile pyWS).reverse = A ++ B := by
  have h1 : (A ++ B).reverse.dropWhile pyWS = (A ++ B).reverse := by
    rw [List.reverse_append, hB]
    simp [List.dropWhile_cons, hc]
  rw [h1, List.reverse_reverse]

theorem dropWhile_cons_of_neg (p : Char → Bool) (c : Char) (t : Line)
    (hc : p c = false) : List.dropWhile p (c :: t) = c :: t := by
  simp [List.dropWhile_cons, hc]

theorem braceNet_append (a b : Line) : braceNet (a ++ b) = braceNet a + braceNet b := by
  simp [braceNet, List.count_append]
  omega

theorem braceNet_of_blank (ind : Line) (h : ∀ c ∈ ind, c = ' ' ∨ c = '\t') :
    braceNet ind = 0 := by
  have h1 : ind.count '\x7b' = 0 := by
    rw [List.count_eq_zero]
    intro hmem
    rcases h _ hmem with h2 | h2 <;> exact absurd h2 (by decide)
  have h2 : ind.count '\x7d' = 0 := by
    rw [List.count_eq_zero]
    intro hmem
    rcases h _ hmem with h2 | h2 <;> exact absurd h2 (by decide)
  simp [braceNet, h1, h2]

end StripLemmas

section ScanLemmas

theorem get?_some_lt (lines : List Line) (i : Nat) (l : Line)
    (h : lines.get? i = some l) : i < lines.length := by
  by_contra hc
  rw [List.get?_eq_none.mpr (by omega)] at h
  cases h

theorem drop_cons_of_get? (lines : List Line) (i : Nat) (l : Line)
    (h : lines.get? i = some l) : lines.drop i = l :: lines.drop (i + 1) := by
  have hi : i < lines.length := get?_some_lt lines i l h
  rw [List.drop_eq_getElem_cons hi]
  have : lines[i] = l := by
    have h2 := List.get?_eq_some.mp h
    obtain ⟨hh, he⟩ := h2
    simpa [List.get_eq_getElem] using he
  rw [this]

theorem mainLoop_step_some (lines : List Line) (fuel i : Nat) (acc : List Line)
    (line : Line) (hget : lines.get? i = some line) :
    mainLoop lines (fuel + 1) i acc =
      (if anchorPat <:+: line then
        match lookAhead lines i 20 (i + 1) none with
        | (some (hdef, serveIdx), some n) =>
          if hdef ≠ [] ∧ n ≠ 0 then
            match rewriteLoop lines serveIdx n (serveIdx + 1) (i + 1)
                (acc ++ ['\t' :: pyStrip hdef, [], line]) with
            | none => none
            | some acc2 => mainLoop lines fuel (serveIdx + 1) acc2
          else mainLoop lines fuel (i + 1) (acc ++ [line])
        | _ => mainLoop lines fuel (i + 1) (acc ++ [line])
      else mainLoop lines fuel (i + 1) (acc ++ [line])) := by
  rw [mainLoop_step, hget]

theorem mainLoop_step_none (lines : List Line) (fuel i : Nat) (acc : List Line)
    (hget : lines.get? i = none) :
    mainLoop lines (fuel + 1) i acc = some acc := by
  rw [mainLoop_step, hget]

/-- When every anchor from position `i` on fails to match, the scan copies
the rest of the file verbatim. -/
theorem mainLoop_verbatim (lines : List Line) :
    ∀ fuel i acc, lines.length ≤ i + fuel →
      (∀ k, i ≤ k → k < lines.length → anchorAt lines k = true →
        matchFound lines k = false) →
      mainLoop lines fuel i acc = some (acc ++ lines.drop i) := by
  intro fuel
  induction fuel with
  | zero =>
    intro i acc hlen _
    rw [mainLoop_zero, if_neg (by omega), List.drop_eq_nil_of_le (by omega)]
    simp
  | succ fuel ih =>
    intro i acc hlen hanch
    cases hget : lines.get? i with
    | none =>
      have hlen2 : lines.length ≤ i := List.get?_eq_none.mp hget
      rw [mainLoop_step_none lines fuel i acc hget,
        List.drop_eq_nil_of_le hlen2]
      simp
    | some line =>
      have hi : i < lines.length := get?_some_lt lines i line hget
      have hdrop : lines.drop i = line :: lines.drop (i + 1) :=
        drop_cons_of_get? lines i line hget
      have hrest : ∀ k, i + 1 ≤ k → k < lines.length → anchorAt lines k = true →
          matchFound lines k = false :=
        fun k hk1 hk2 hk3 => hanch k (by omega) hk2 hk3
      have htail := ih (i + 1) (acc ++ [line]) (by omega) hrest
      have hfinish : acc ++ [line] ++ lines.drop (i + 1) = acc ++ lines.drop i := by
        rw [hdrop]; simp
      rw [mainLoop_step_some lines fuel i acc line hget]
      by_cases hA : anchorPat <:+: line
      · have hAAt : anchorAt lines i = true := by
          unfold anchorAt; rw [hget]; exact decide_eq_true hA
        have hm := hanch i le_rfl hi hAAt
        rw [if_pos hA]
        split
        · rename_i hdef serveIdx n hLA
          have hm2 : ¬ (hdef ≠ [] ∧ n ≠ 0) := by
            simp only [matchFound, hLA] at hm
            simp only [Bool.and_eq_false_iff, Bool.not_eq_false',
              bne_eq_false_iff_eq, List.isEmpty_iff] at hm
            rcases hm with hm | hm
            · exact fun hcon => hcon.1 hm
            · exact fun hcon => hcon.2 hm
          rw [if_neg hm2, htail, hfinish]
        · rw [htail, hfinish]
      · rw [if_neg hA, htail, hfinish]

/-- Scanning `t` lines none of which is an anchor copies them verbatim and
advances the cursor by `t`, consuming `t` units of fuel. -/
theorem mainLoop_skip (lines : List Line) :
    ∀ t fuel i acc, i + t ≤ lines.length →
      (∀ k, i ≤ k → k < i + t → anchorAt lines k = false) →
      mainLoop lines (t + fuel) i acc =
        mainLoop lines fuel (i + t) (acc ++ (lines.drop i).take t) := by
  intro t
  induction t with
  | zero => intro fuel i acc _ _; simp
  | succ t ih =>
    intro fuel i acc hlen hanch
    have hi : i < lines.length := by omega
    obtain ⟨line, hget⟩ : ∃ l, lines.get? i = some l := by
      cases hg : lines.get? i with
      | none => exact absurd (List.get?_eq_none.mp hg) (by omega)
      | some l => exact ⟨l, rfl⟩
    have hdrop := drop_cons_of_get? lines i line hget
    have hA : ¬ anchorPat <:+: line := by
      have hh := hanch i le_rfl (by omega)
      unfold anchorAt at hh; rw [hget] at hh
      exact of_decide_eq_false hh
    have hstep : t + 1 + fuel = (t + fuel) + 1 := by omega
    rw [hstep, mainLoop_step_some lines (t + fuel) i acc line hget, if_neg hA]
    have hrec := ih fuel (i + 1) (acc ++ [line]) (by omega)
      (fun k hk1 hk2 => hanch k (by omega) (by omega))
    rw [hrec]
    have h1 : i + 1 + t = i + (t + 1) := by omega
    have h2 : acc ++ [line] ++ (lines.drop (i + 1)).take t =
        acc ++ (lines.drop i).take (t + 1) := by
      rw [hdrop, List.take_succ_cons]
      simp
    rw [h1, h2]

end ScanLemmas

section LookAheadLemmas

/-- If no line of the window matches the handler-definition pattern, the
look-ahead reports no handler block. -/
theorem lookAhead_handler_none (lines : List Line) (i : Nat) :
    ∀ fuel j nconn,
      (∀ m, j ≤ m → m < i + 20 → m < lines.length → handlerAt lines m = false) →
      (lookAhead lines i fuel j nconn).1 = none := by
  intro fuel
  induction fuel with
  | zero => intro j nconn _; rfl
  | succ fuel ih =>
    intro j nconn hno
    rw [lookAhead_step]
    split
    · rename_i hg
      split
      · rfl
      · rename_i l hget
        have hH : ¬ handlerPat <:+: l := by
          have hh := hno j le_rfl hg.2 hg.1
          unfold handlerAt at hh; rw [hget] at hh
          exact of_decide_eq_false hh
        rw [if_neg hH]
        split
        · exact ih (j + 1) (some j) (fun m hm1 hm2 hm3 => hno m (by omega) hm2 hm3)
        · exact ih (j + 1) nconn (fun m hm1 hm2 hm3 => hno m (by omega) hm2 hm3)
    · rfl

/-- If the look-ahead reports a handler block, some line of the window
matches the handler-definition pattern and extraction from there produced
exactly the reported block. -/
theorem lookAhead_handler_found (lines : List Line) (i : Nat) :
    ∀ fuel j nconn d s nres,
      lookAhead lines i fuel j nconn = (some (d, s), nres) →
      ∃ j2 lj, j ≤ j2 ∧ j2 < i + 20 ∧ j2 < lines.length ∧
        lines.get? j2 = some lj ∧ handlerPat <:+: lj ∧
        extractHandler lines j2 = some (d, s) := by
  intro fuel
  induction fuel with
  | zero => intro j nconn d s nres h; simp [lookAhead] at h
  | succ fuel ih =>
    intro j nconn d s nres h
    rw [lookAhead_step] at h
    split at h
    · rename_i hg
      split at h
      · simp at h
      · rename_i l hget
        split at h
        · rename_i hH
          have h1 : extractHandler lines j = some (d, s) := by
            have := congrArg Prod.fst h
            simpa using this
          exact ⟨j, l, le_rfl, hg.2, hg.1, hget, hH, h1⟩
        · rename_i hH
          split at h
          · obtain ⟨j2, lj, h1, h2, h3, h4, h5, h6⟩ := ih (j + 1) (some j) d s nres h
            exact ⟨j2, lj, by omega, h2, h3, h4, h5, h6⟩
          · obtain ⟨j2, lj, h1, h2, h3, h4, h5, h6⟩ := ih (j + 1) nconn d s nres h
            exact ⟨j2, lj, by omega, h2, h3, h4, h5, h6⟩
    · simp at h

/-- If the look-ahead reports a construction-call index that was not already
carried in, that index lies in the window, its line matches the
construction-call pattern, and no line at or before it (from the scan
start) matches the handler-definition pattern: the search breaks at the
first handler-definition line. -/
theorem lookAhead_conn_found (lines : List Line) (i : Nat) :
    ∀ fuel j nconn res n,
      lookAhead lines i fuel j nconn = (res, some n) →
      some n = nconn ∨
        (j ≤ n ∧ n < i + 20 ∧ n < lines.length ∧
          (∃ ln, lines.get? n = some ln ∧ connOldPat <:+: ln) ∧
          (∀ m lm, j ≤ m → m ≤ n → lines.get? m = some lm →
            ¬ handlerPat <:+: lm)) := by
  intro fuel
  induction fuel with
  | zero =>
    intro j nconn res n h
    left
    have := congrArg Prod.snd h
    simpa using this.symm
  | succ fuel ih =>
    intro j nconn res n h
    rw [lookAhead_step] at h
    split at h
    · rename_i hg
      split at h
      · left
        have := congrArg Prod.snd h
        simpa using this.symm
      · rename_i l hget
        split at h
        · left
          have := congrArg Prod.snd h
          simpa using this.symm
        · rename_i hH
          split at h
          · rename_i hC
            rcases ih (j + 1) (some j) res n h with heq | hfound
            · right
              have hnj : n = j := by simpa using heq
              subst hnj
              refine ⟨le_rfl, hg.2, hg.1, ⟨l, hget, hC⟩, ?_⟩
              intro m lm hm1 hm2 hgetm
              have hmj : m = n := by omega
              subst hmj
              have : lm = l := by
                rw [hget] at hgetm
                simpa using hgetm.symm
              rw [this]
              exact hH
            · right
              obtain ⟨h1, h2, h3, h4, h5⟩ := hfound
              refine ⟨by omega, h2, h3, h4, ?_⟩
              intro m lm hm1 hm2 hgetm
              by_cases hmj : m = j
              · subst hmj
                have : lm = l := by
                  rw [hget] at hgetm
                  simpa using hgetm.symm
                rw [this]
                exact hH
              · exact h5 m lm (by omega) hm2 hgetm
          · rcases ih (j + 1) nconn res n h with heq | hfound
            · left; exact heq
            · right
              obtain ⟨h1, h2, h3, h4, h5⟩ := hfound
              refine ⟨by omega, h2, h3, h4, ?_⟩
              intro m lm hm1 hm2 hgetm
              by_cases hmj : m = j
              · subst hmj
                have : lm = l := by
                  rw [hget] at hgetm
                  simpa using hgetm.symm
                rw [this]
                exact hH
              · exact h5 m lm (by omega) hm2 hgetm
    · left
      have := congrArg Prod.snd h
      simpa using this.symm

end LookAheadLemmas

section BraceLemmas

theorem depthSlice_same (lines : List Line) (k : Nat) (l : Line)
    (h : lines.get? k = some l) : depthSlice lines k k = braceNet l := by
  unfold depthSlice
  rw [drop_cons_of_get? lines k l h]
  have h1 : k + 1 - k = 1 := by omega
  rw [h1]
  simp

theorem depthSlice_succ (lines : List Line) (k m : Nat) (l : Line)
    (h : lines.get? k = some l) (hm : k + 1 ≤ m) :
    depthSlice lines k m = braceNet l + depthSlice lines (k + 1) m := by
  unfold depthSlice
  rw [drop_cons_of_get? lines k l h]
  have h1 : m + 1 - k = (m + 1 - (k + 1)) + 1 := by omega
  rw [h1, List.take_succ_cons]
  simp

/-- Soundness of the brace-counting loop: a reported block end `e` is the
first line at or after the start where the accumulated depth reaches zero
on a line containing an opening brace, and the reported block text is the
join of the scanned lines. -/
theorem braceLoop_sound (lines : List Line) (stop : Nat) :
    ∀ fuel k cnt acc d s, braceLoop lines stop fuel k cnt acc = some (d, s) →
      ∃ e le, s = e + 2 ∧ k ≤ e ∧ e < stop ∧ lines.get? e = some le ∧
        cnt + depthSlice lines k e = 0 ∧ '\x7b' ∈ le ∧
        (∀ m lm, k ≤ m → m < e → lines.get? m = some lm →
          ¬ (cnt + depthSlice lines k m = 0 ∧ '\x7b' ∈ lm)) ∧
        d = joinLines (acc ++ (lines.drop k).take (e + 1 - k)) := by
  intro fuel
  induction fuel with
  | zero => intro k cnt acc d s h; simp [braceLoop] at h
  | succ fuel ih =>
    intro k cnt acc d s h
    rw [braceLoop_step] at h
    split at h
    · rename_i hk
      split at h
      · simp at h
      · rename_i l hget
        split at h
        · rename_i hclose
          have hd : joinLines (acc ++ [l]) = d ∧ k + 2 = s := by
            constructor
            · have := congrArg Prod.fst (Option.some.inj h)
              simpa using this
            · have := congrArg Prod.snd (Option.some.inj h)
              simpa using this
          refine ⟨k, l, hd.2.symm, le_rfl, hk, hget, ?_, hclose.2, ?_, ?_⟩
          · rw [depthSlice_same lines k l hget]
            exact hclose.1
          · intro m lm hm1 hm2 _
            omega
          · have h1 : k + 1 - k = 1 := by omega
            rw [h1, drop_cons_of_get? lines k l hget, List.take_succ_cons,
              List.take_zero]
            exact hd.1.symm
        · rename_i hclose
          obtain ⟨e, le, h1, h2, h3, h4, h5, h6, h7, h8⟩ :=
            ih (k + 1) (cnt + braceNet l) (acc ++ [l]) d s h
          refine ⟨e, le, h1, by omega, h3, h4, ?_, h6, ?_, ?_⟩
          · rw [depthSlice_succ lines k e l hget h2]
            omega
          · intro m lm hm1 hm2 hgetm
            by_cases hmk : m = k
            · subst hmk
              have hlm : lm = l := by
                rw [hget] at hgetm
                simpa using hgetm.symm
              rw [hlm, depthSlice_same lines m l hget]
              exact hclose
            · have hm1b : k + 1 ≤ m := by omega
              have hh := h7 m lm hm1b hm2 hgetm
              rw [depthSlice_succ lines k m l hget hm1b]
              intro hcon
              exact hh ⟨by omega, hcon.2⟩
          · rw [h8]
            have he1 : e + 1 - k = (e + 1 - (k + 1)) + 1 := by omega
            rw [he1, drop_cons_of_get? lines k l hget, List.take_succ_cons]
            simp
    · simp at h

end BraceLemmas

section SmallSteps

theorem lookAhead_step_handler (lines : List Line) (i fuel j : Nat)
    (nconn : Option Nat) (l : Line) (hget : lines.get? j = some l)
    (hg1 : j < lines.length) (hg2 : j < i + 20) (hH : handlerPat <:+: l) :
    lookAhead lines i (fuel + 1) j nconn = (extractHandler lines j, nconn) := by
  rw [lookAhead_step, if_pos ⟨hg1, hg2⟩, hget]
  show (if handlerPat <:+: l then (extractHandler lines j, nconn)
    else if connOldPat <:+: l then lookAhead lines i fuel (j + 1) (some j)
    else lookAhead lines i fuel (j + 1) nconn) = (extractHandler lines j, nconn)
  rw [if_pos hH]

theorem lookAhead_step_conn (lines : List Line) (i fuel j : Nat)
    (nconn : Option Nat) (l : Line) (hget : lines.get? j = some l)
    (hg1 : j < lines.length) (hg2 : j < i + 20)
    (hH : ¬ handlerPat <:+: l) (hC : connOldPat <:+: l) :
    lookAhead lines i (fuel + 1) j nconn = lookAhead lines i fuel (j + 1) (some j) := by
  rw [lookAhead_step, if_pos ⟨hg1, hg2⟩, hget]
  show (if handlerPat <:+: l then (extractHandler lines j, nconn)
    else if connOldPat <:+: l then lookAhead lines i fuel (j + 1) (some j)
    else lookAhead lines i fuel (j + 1) nconn) =
    lookAhead lines i fuel (j + 1) (some j)
  rw [if_neg hH, if_pos hC]

theorem braceLoop_step_close (lines : List Line) (stop fuel k : Nat) (cnt : Int)
    (acc : List Line) (l : Line) (hk : k < stop) (hget : lines.get? k = some l)
    (hc : cnt + braceNet l = 0 ∧ '\x7b' ∈ l) :
    braceLoop lines stop (fuel + 1) k cnt acc =
      some (joinLines (acc ++ [l]), k + 2) := by
  rw [braceLoop_step, if_pos hk, hget]
  show (if cnt + braceNet l = 0 ∧ '\x7b' ∈ l then
      some (joinLines (acc ++ [l]), k + 2)
    else braceLoop lines stop fuel (k + 1) (cnt + braceNet l) (acc ++ [l])) =
    some (joinLines (acc ++ [l]), k + 2)
  rw [if_pos hc]

theorem braceLoop_step_cont (lines : List Line) (stop fuel k : Nat) (cnt : Int)
    (acc : List Line) (l : Line) (hk : k < stop) (hget : lines.get? k = some l)
    (hc : ¬ (cnt + braceNet l = 0 ∧ '\x7b' ∈ l)) :
    braceLoop lines stop (fuel + 1) k cnt acc =
      braceLoop lines stop fuel (k + 1) (cnt + braceNet l) (acc ++ [l]) := by
  rw [braceLoop_step, if_pos hk, hget]
  show (if cnt + braceNet l = 0 ∧ '\x7b' ∈ l then
      some (joinLines (acc ++ [l]), k + 2)
    else braceLoop lines stop fuel (k + 1) (cnt + braceNet l) (acc ++ [l])) =
    braceLoop lines stop fuel (k + 1) (cnt + braceNet l) (acc ++ [l])
  rw [if_neg hc]

theorem rewriteLoop_step_conn (lines : List Line) (serveIdx nconn fuel : Nat)
    (acc : List Line) (l : Line) (hle : nconn ≤ serveIdx)
    (hget : lines.get? nconn = some l) :
    rewriteLoop lines serveIdx nconn (fuel + 1) nconn acc =
      rewriteLoop lines serveIdx nconn fuel (nconn + 1)
        (acc ++ [pyReplace l connOldPat connNewPat]) := by
  rw [rewriteLoop_step, if_pos hle, hget]
  show (if nconn = nconn then
      rewriteLoop lines serveIdx nconn fuel (nconn + 1)
        (acc ++ [pyReplace l connOldPat connNewPat])
    else if handlerSkipPat <:+: l then
      rewriteLoop lines serveIdx nconn fuel (nconn + 1) acc
    else if serveOldPat <:+: l then
      rewriteLoop lines serveIdx nconn fuel (nconn + 1)
        (acc ++ [pyReplace l serveOldPat serveNewPat])
    else rewriteLoop lines serveIdx nconn fuel (nconn + 1) (acc ++ [l])) = _
  rw [if_pos rfl]

theorem rewriteLoop_step_skip (lines : List Line) (serveIdx nconn fuel i : Nat)
    (acc : List Line) (l : Line) (hle : i ≤ serveIdx)
    (hget : lines.get? i = some l) (hne : i ≠ nconn)
    (hH : handlerSkipPat <:+: l) :
    rewriteLoop lines serveIdx nconn (fuel + 1) i acc =
      rewriteLoop lines serveIdx nconn fuel (i + 1) acc := by
  rw [rewriteLoop_step, if_pos hle, hget]
  show (if i = nconn then
      rewriteLoop lines serveIdx nconn fuel (i + 1)
        (acc ++ [pyReplace l connOldPat connNewPat])
    else if handlerSkipPat <:+: l then
      rewriteLoop lines serveIdx nconn fuel (i + 1) acc
    else if serveOldPat <:+: l then
      rewriteLoop lines serveIdx nconn fuel (i + 1)
        (acc ++ [pyReplace l serveOldPat serveNewPat])
    else rewriteLoop lines serveIdx nconn fuel (i + 1) (acc ++ [l])) = _
  rw [if_neg hne, if_pos hH]

theorem rewriteLoop_step_serve (lines : List Line) (serveIdx nconn fuel i : Nat)
    (acc : List Line) (l : Line) (hle : i ≤ serveIdx)
    (hget : lines.get? i = some l) (hne : i ≠ nconn)
    (hH : ¬ handlerSkipPat <:+: l) (hS : serveOldPat <:+: l) :
    rewriteLoop lines serveIdx nconn (fuel + 1) i acc =
      rewriteLoop lines serveIdx nconn fuel (i + 1)
        (acc ++ [pyReplace l serveOldPat serveNewPat]) := by
  rw [rewriteLoop_step, if_pos hle, hget]
  show (if i = nconn then
      rewriteLoop lines serveIdx nconn fuel (i + 1)
        (acc ++ [pyReplace l connOldPat connNewPat])
    else if handlerSkipPat <:+: l then
      rewriteLoop lines serveIdx nconn fuel (i + 1) acc
    else if serveOldPat <:+: l then
      rewriteLoop lines serveIdx nconn fuel (i + 1)
        (acc ++ [pyReplace l serveOldPat serveNewPat])
    else rewriteLoop lines serveIdx nconn fuel (i + 1) (acc ++ [l])) = _
  rw [if_neg hne, if_neg hH, if_pos hS]

theorem rewriteLoop_step_plain (lines : List Line) (serveIdx nconn fuel i : Nat)
    (acc : List Line) (l : Line) (hle : i ≤ serveIdx)
    (hget : lines.get? i = some l) (hne : i ≠ nconn)
    (hH : ¬ handlerSkipPat <:+: l) (hS : ¬ serveOldPat <:+: l) :
    rewriteLoop lines serveIdx nconn (fuel + 1) i acc =
      rewriteLoop lines serveIdx nconn fuel (i + 1) (acc ++ [l]) := by
  rw [rewriteLoop_step, if_pos hle, hget]
  show (if i = nconn then
      rewriteLoop lines serveIdx nconn fuel (i + 1)
        (acc ++ [pyReplace l connOldPat connNewPat])
    else if handlerSkipPat <:+: l then
      rewriteLoop lines serveIdx nconn fuel (i + 1) acc
    else if serveOldPat <:+: l then
      rewriteLoop lines serveIdx nconn fuel (i + 1)
        (acc ++ [pyReplace l serveOldPat serveNewPat])
    else rewriteLoop lines serveIdx nconn fuel (i + 1) (acc ++ [l])) = _
  rw [if_neg hne, if_neg hH, if_neg hS]

theorem rewriteLoop_done (lines : List Line) (serveIdx nconn fuel i : Nat)
    (acc : List Line) (h : serveIdx < i) :
    rewriteLoop lines serveIdx nconn (fuel + 1) i acc = some acc := by
  rw [rewriteLoop_step, if_neg (by omega)]

theorem mainLoop_rewrite_branch (lines : List Line) (fuel i : Nat)
    (acc : List Line) (line hdef : Line) (serveIdx n : Nat)
    (hget : lines.get? i = some line) (hA : anchorPat <:+: line)
    (hLA : lookAhead lines i 20 (i + 1) none = (some (hdef, serveIdx), some n))
    (ht : hdef ≠ [] ∧ n ≠ 0) :
    mainLoop lines (fuel + 1) i acc =
      (match rewriteLoop lines serveIdx n (serveIdx + 1) (i + 1)
          (acc ++ ['\t' :: pyStrip hdef, [], line]) with
      | none => none
      | some acc2 => mainLoop lines fuel (serveIdx + 1) acc2) := by
  have h1 : mainLoop lines (fuel + 1) i acc =
      (if hdef ≠ [] ∧ n ≠ 0 then
        match rewriteLoop lines serveIdx n (serveIdx + 1) (i + 1)
            (acc ++ ['\t' :: pyStrip hdef, [], line]) with
        | none => none
        | some acc2 => mainLoop lines fuel (serveIdx + 1) acc2
      else mainLoop lines fuel (i + 1) (acc ++ [line])) := by
    rw [mainLoop_step_some lines fuel i acc line hget, if_pos hA, hLA]
  rw [h1, if_pos ht]

theorem mainLoop_step_plain (lines : List Line) (fuel i : Nat) (acc : List Line)
    (line : Line) (hget : lines.get? i = some line)
    (hA : ¬ anchorPat <:+: line) :
    mainLoop lines (fuel + 1) i acc = mainLoop lines fuel (i + 1) (acc ++ [line]) := by
  rw [mainLoop_step_some lines fuel i acc line hget, if_neg hA]

theorem rewriteLoop_unfuel {lines : List Line} {serveIdx nconn i : Nat}
    {acc : List Line} (fuel0 fuel : Nat) (hf : fuel0 = fuel + 1) :
    rewriteLoop lines serveIdx nconn fuel0 i acc =
      rewriteLoop lines serveIdx nconn (fuel + 1) i acc := by rw [hf]

theorem mainLoop_unfuel {lines : List Line} {i : Nat} {acc : List Line}
    (fuel0 fuel : Nat) (hf : fuel0 = fuel + 1) :
    mainLoop lines fuel0 i acc = mainLoop lines (fuel + 1) i acc := by rw [hf]

theorem get?_append_right_len (l₁ l₂ : List Line) (k : Nat) (h : l₁.length ≤ k) :
    (l₁ ++ l₂).get? k = l₂.get? (k - l₁.length) := by
  simp [List.get?_eq_getElem?, List.getElem?_append_right h]

end SmallSteps

section ConcreteInputs

/-- A file whose matched handler block ends on the last line, so the
computed usage-line index `e + 2` lies past the end of the file. -/
def crashTxt : Line :=
  ("for i := 0; i < b.N; i++ \x7b\nconn := NewConnection(mockConn, config)\nhandler := func(req *Request, rw *ResponseWriter) error \x7b return nil \x7d").data

/-- A file with a handler block spanning three lines whose closing line
carries an opening brace, so the block is matched in full. -/
def dupTxt : Line :=
  ("for i := 0; i < b.N; i++ \x7b\n\tconn := NewConnection(mockConn, config)\n\thandler := func(req *Request, rw *ResponseWriter) error \x7b\n\t\treturn nil\n\t\x7d; _ = T\x7b\x7d\n\n\tconn.Serve(handler)\n\x7d\nend").data

/-- The rewritten form of `dupTxt` actually produced by the engine: the
interior handler lines appear both in the relocated block and at their
original position. -/
def dupOut : Line :=
  ("\thandler := func(req *Request, rw *ResponseWriter) error \x7b\n\t\treturn nil\n\t\x7d; _ = T\x7b\x7d\n\nfor i := 0; i < b.N; i++ \x7b\n\tconn := NewConnection(mockConn, config, handler)\n\t\treturn nil\n\t\x7d; _ = T\x7b\x7d\n\n\tconn.Serve()\n\x7d\nend").data

/-- Like `dupTxt` but with a distinct interior line, used to exhibit the
duplication against claim C1. -/
def dupTxt2 : Line :=
  ("for i := 0; i < b.N; i++ \x7b\n\tconn := NewConnection(mockConn, config)\n\thandler := func(req *Request, rw *ResponseWriter) error \x7b\n\t\tx()\n\t\x7d; _ = T\x7b\x7d\n\n\tconn.Serve(handler)\n\x7d\ntail").data

/-- A matched pattern whose usage-line index is one past the end. -/
def crashTxt2 : Line :=
  ("for i := 0; i < b.N; i++ \x7b\nzz\nconn := NewConnection(mockConn, config)\nhandler := func(req *Request, rw *ResponseWriter) error \x7b return nil \x7d\ngap").data

/-- Construction call before the handler definition inside the window. -/
def orderA : Line :=
  ("for i := 0; i < b.N; i++ \x7b\nconn := NewConnection(mockConn, config)\nhandler := func(req *Request, rw *ResponseWriter) error \x7b return nil \x7d\ngap\nconn.Serve(handler)\ntail").data

/-- The same lines with the handler definition before the construction
call inside the window. -/
def orderB : Line :=
  ("for i := 0; i < b.N; i++ \x7b\nhandler := func(req *Request, rw *ResponseWriter) error \x7b return nil \x7d\nconn := NewConnection(mockConn, config)\ngap\nconn.Serve(handler)\ntail").data

/-- A handler block with nested braces (an inner conditional raising the
cumulative depth to 2) whose closing line is a bare closing brace: the
cumulative depth first returns to zero on line 4, which carries no
opening brace. -/
def nestedBareClose : List Line :=
  [("handler := func(req *Request, rw *ResponseWriter) error \x7b").data,
   ("\tif ok \x7b").data,
   ("\t\treturn nil").data,
   ("\t\x7d").data,
   ("\x7d").data]

/-- Anchor, construction call, 18 filler lines, then the handler exactly
20 lines after the anchor (at index 20). -/
def window20 : Line :=
  joinLines ([("for i := 0; i < b.N; i++ \x7b").data,
    ("conn := NewConnection(mockConn, config)").data] ++
    List.replicate 18 ("x").data ++
    [("handler := func(req *Request, rw *ResponseWriter) error \x7b return nil \x7d").data,
     ("y").data, ("conn.Serve(handler)").data, ("tail").data])

/-- The same file with one filler line fewer, so the handler sits 19
lines after the anchor (at index 19). -/
def window19 : Line :=
  joinLines ([("for i := 0; i < b.N; i++ \x7b").data,
    ("conn := NewConnection(mockConn, config)").data] ++
    List.replicate 17 ("x").data ++
    [("handler := func(req *Request, rw *ResponseWriter) error \x7b return nil \x7d").data,
     ("y").data, ("conn.Serve(handler)").data, ("tail").data])

end ConcreteInputs

section ClaimC2

/-- C2: refuted on the code — the rewrite engine does not return a string
on every input.  On `crashTxt`, whose matched handler block ends on the
last line of the file, the computed usage-line index `e + 2 = 4` exceeds
the index of the last line (2), and the re-emission loop reads `lines[3]`
past the end of the 3-line file, raising `IndexError` (modelled as
`none`). -/
theorem C2_index_error_eval : fix_benchmark_pattern crashTxt = none := by rfl

end ClaimC2

section ClaimC3

/-- C3: refuted on the code — the re-emission loop does not suppress the
lines from `h` to `e` inclusive; it suppresses only lines containing the
substring `handler := func`.  On `dupTxt`, whose handler block spans
lines 2–4, lines 3 and 4 are re-emitted at their original position even
though they were already emitted before the anchor, so they appear twice
in the output. -/
theorem C3_duplication_eval : fix_benchmark_pattern dupTxt = some dupOut := by rfl

end ClaimC3

section ClaimC9

/-- C9 counterexample: with exactly one file argument the tool does not
always exit with status 0 — on `crashTxt2` the rewrite raises an
uncaught `IndexError` after the read and before the write, so the
process terminates abnormally instead of printing the confirmation. -/
theorem C9_counterexample : main 2 crashTxt2 = MainOutcome.crash := by rfl

end ClaimC9

section ClaimC5

/-- C5 counterexample: whether the construction-call line is found does
depend on its position relative to the handler-definition line.
`orderA` and `orderB` contain the same five pattern lines after the
anchor, differing only in the order of the construction-call line and
the handler-definition line; with the construction call first the file
is rewritten, with the handler definition first the look-ahead breaks
before ever reading the construction call and the file passes through
unchanged. -/
theorem C5_counterexample :
    fix_benchmark_pattern orderB = some orderB ∧
      fix_benchmark_pattern orderA ≠ some orderA := by
  constructor
  · rfl
  · decide

end ClaimC5

section ClaimC4

/-- C4 counterexample: for a handler block containing nested braces,
extraction does not end at the first line where cumulative depth returns
to zero.  In `nestedBareClose` an inner conditional raises the
cumulative depth (from line 0) to 2 on line 1, and the depth first
returns to zero on line 4, within the 15-line cap — but that line is a
bare closing brace with no opening brace, so the extraction loop runs
past it and fails instead of recording `e = 4` and returning the full
block of lines 0–4. -/
theorem C4_counterexample :
    depthSlice nestedBareClose 0 1 = 2 ∧ depthSlice nestedBareClose 0 4 = 0 ∧
      extractHandler nestedBareClose 0 = none := by
  refine ⟨?_, ?_, ?_⟩
  · rfl
  · rfl
  · rfl

end ClaimC4

section ClaimC8

/-- C8 counterexample: the look-ahead window does not include index
`i + 20`.  `window20` places the handler-definition line exactly 20
lines after the anchor (with the construction call inside the window)
and is passed through unchanged, while `window19` — identical except
that the handler sits 19 lines after the anchor — is rewritten.  So the
search examines indices up to `i + 19` only. -/
theorem C8_counterexample :
    fix_benchmark_pattern window20 = some window20 ∧
      fix_benchmark_pattern window19 ≠ some window19 := by
  constructor
  · rfl
  · decide

end ClaimC8

section ClaimC1

/-- C1 counterexample: for a multi-line handler block matched in the
window, the output is not the input with only the block relocated and
the two calls rewritten — the interior line of the handler block (here
the line of text (tab)(tab)x-parens) occurs once in `dupTxt2` but twice
in the rewritten output, because the re-emission loop only suppresses
lines containing the handler-definition substring. -/
theorem C1_counterexample :
    (fix_benchmark_pattern dupTxt2).map
        (fun l => (splitLines l).count ("\t\tx()").data) = some 2 ∧
      (splitLines dupTxt2).count ("\t\tx()").data = 1 := by
  constructor
  · rfl
  · rfl

end ClaimC1

section ClaimC6

/-- C6: when an anchor line is present but no anchor of the file fully
matches the pattern in its window — no handler-definition line is found,
or no construction-call line is found, or the brace count never closes
within the cap — the rewrite returns the input text unchanged. -/
theorem C6_verbatim_on_no_match (content : Line)
    (h : ∀ k, k < (splitLines content).length →
      anchorAt (splitLines content) k = true →
      matchFound (splitLines content) k = false) :
    fix_benchmark_pattern content = some content := by
  show (mainLoop (splitLines content) (splitLines content).length 0 []).map
    joinLines = some content
  rw [mainLoop_verbatim (splitLines content) (splitLines content).length 0 []
    (by omega) (fun k _ hk2 hk3 => h k hk2 hk3)]
  simp [joinLines_splitLines]

/-- An input containing the anchor but no handler-definition or
construction-call line in its window. -/
def noMatchTxt : Line := ("for i := 0; i < b.N; i++ \x7b\nnothing here\n\x7d").data

theorem C6_witness : fix_benchmark_pattern noMatchTxt = some noMatchTxt :=
  C6_verbatim_on_no_match noMatchTxt (by decide)

end ClaimC6

section ClaimC7

/-- C7: on text already in the new call shape — in particular with no
handler-definition line inside the look-ahead window of any anchor — the
rewrite output is byte-identical to the input. -/
theorem C7_identity_on_migrated (content : Line)
    (h : ∀ k, k < (splitLines content).length →
      anchorAt (splitLines content) k = true →
      ∀ j, j < k + 20 → k < j → j < (splitLines content).length →
        handlerAt (splitLines content) j = false) :
    fix_benchmark_pattern content = some content := by
  have hmf : ∀ k, k < (splitLines content).length →
      anchorAt (splitLines content) k = true →
      matchFound (splitLines content) k = false := by
    intro k hk hA
    have h1 := lookAhead_handler_none (splitLines content) k 20 (k + 1) none
      (fun m hm1 hm2 hm3 => h k hk hA m hm2 (by omega) hm3)
    unfold matchFound
    rcases hLA : lookAhead (splitLines content) k 20 (k + 1) none with ⟨r1, r2⟩
    rw [hLA] at h1
    simp only at h1
    subst h1
    cases r2 <;> rfl
  show (mainLoop (splitLines content) (splitLines content).length 0 []).map
    joinLines = some content
  rw [mainLoop_verbatim (splitLines content) (splitLines content).length 0 []
    (by omega) (fun k _ hk2 hk3 => hmf k hk2 hk3)]
  simp [joinLines_splitLines]

/-- A file already migrated to the new call shape: the handler sits above
the loop, the construction call carries the handler argument, and the
usage call takes no arguments. -/
def migratedTxt : Line :=
  ("handler := func(req *Request, rw *ResponseWriter) error \x7b return nil \x7d\n\nfor i := 0; i < b.N; i++ \x7b\n\tconn := NewConnection(mockConn, config, handler)\n\n\tconn.Serve()\n\x7d").data

theorem C7_witness : fix_benchmark_pattern migratedTxt = some migratedTxt :=
  C7_identity_on_migrated migratedTxt (by decide)

end ClaimC7

section ClaimC9

/-- C9 amended: with any argument count other than one file argument the
tool prints usage and exits nonzero without touching any file; with one
file argument it reads the file and, when the rewrite completes, writes
the result back, prints the confirmation and exits 0 — but when the
rewrite raises, the process dies on the exception after the read and
before the write. -/
theorem C9_cli_behavior (argc : Nat) (content : Line) :
    (argc ≠ 2 → main argc content = MainOutcome.usage) ∧
    (∀ out, fix_benchmark_pattern content = some out →
      main 2 content = MainOutcome.ok out) ∧
    (fix_benchmark_pattern content = none →
      main 2 content = MainOutcome.crash) := by
  refine ⟨fun h => ?_, fun out h => ?_, fun h => ?_⟩
  · simp [main, h]
  · simp [main, h]
  · simp [main, h]

theorem C9_witness :
    main 3 [] = MainOutcome.usage ∧ main 2 [] = MainOutcome.ok [] :=
  ⟨(C9_cli_behavior 3 []).1 (by decide),
   (C9_cli_behavior 2 []).2.1 [] (by rfl)⟩

end ClaimC9

section ClaimC4

/-- C4 amended: whenever extraction started at line `j` reports a block
`(d, s)`, the end line `e = s - 2` is the first line at or after `j`
within the 15-line cap on which the cumulative brace depth from `j`
returns to zero AND which contains at least one opening brace, and the
reported block is exactly lines `j` through `e` inclusive. -/
theorem C4_block_end_characterization (lines : List Line) (j : Nat) (d : Line)
    (s : Nat) (h : extractHandler lines j = some (d, s)) :
    ∃ e le, s = e + 2 ∧ j ≤ e ∧ e < j + 15 ∧ e < lines.length ∧
      lines.get? e = some le ∧ depthSlice lines j e = 0 ∧ '\x7b' ∈ le ∧
      (∀ m lm, j ≤ m → m < e → lines.get? m = some lm →
        ¬ (depthSlice lines j m = 0 ∧ '\x7b' ∈ lm)) ∧
      d = joinLines ((lines.drop j).take (e + 1 - j)) := by
  obtain ⟨e, le, h1, h2, h3, h4, h5, h6, h7, h8⟩ :=
    braceLoop_sound lines (min (j + 15) lines.length) 15 j 0 [] d s h
  refine ⟨e, le, h1, h2, by omega, by omega, h4, by simpa using h5, h6, ?_,
    by simpa using h8⟩
  intro m lm hm1 hm2 hgetm
  have hh := h7 m lm hm1 hm2 hgetm
  simpa using hh

/-- A handler block with an inner conditional whose closing line carries
an opening brace, so the code closes it at depth zero. -/
def nestedLines : List Line :=
  [("handler := func(req *Request, rw *ResponseWriter) error \x7b").data,
   ("\tif ok \x7b").data,
   ("\t\tx()").data,
   ("\t\x7d").data,
   ("\x7d; _ = T\x7b\x7d").data]

theorem C4_witness :
    extractHandler nestedLines 0 = some (joinLines nestedLines, 6) ∧
      (∃ e le, (6 : Nat) = e + 2 ∧ 0 ≤ e ∧ e < 0 + 15 ∧ e < nestedLines.length ∧
        nestedLines.get? e = some le ∧ depthSlice nestedLines 0 e = 0 ∧
        '\x7b' ∈ le ∧
        (∀ m lm, 0 ≤ m → m < e → nestedLines.get? m = some lm →
          ¬ (depthSlice nestedLines 0 m = 0 ∧ '\x7b' ∈ lm)) ∧
        joinLines nestedLines =
          joinLines ((nestedLines.drop 0).take (e + 1 - 0))) :=
  ⟨by rfl, C4_block_end_characterization nestedLines 0 (joinLines nestedLines) 6
    (by rfl)⟩

end ClaimC4

section ClaimC5

/-- C5 amended: the two searches are not independent — the
construction-call index is recorded only from lines scanned strictly
before the handler-definition line.  Whenever the look-ahead from anchor
`i` reports a construction-call index `n`, that index lies in the
window, its line contains the construction-call substring, and no line
from `i + 1` up to and including `n` matches the handler-definition
pattern (the scan breaks at the first handler-definition line, so a
construction call after it is never found). -/
theorem C5_conn_before_handler (lines : List Line) (i n : Nat)
    (res : Option (Line × Nat))
    (h : lookAhead lines i 20 (i + 1) none = (res, some n)) :
    i + 1 ≤ n ∧ n < i + 20 ∧ n < lines.length ∧
      (∃ ln, lines.get? n = some ln ∧ connOldPat <:+: ln) ∧
      (∀ m lm, i + 1 ≤ m → m ≤ n → lines.get? m = some lm →
        ¬ handlerPat <:+: lm) := by
  rcases lookAhead_conn_found lines i 20 (i + 1) none res n h with heq | hfound
  · exact absurd heq (by simp)
  · exact hfound

/-- Anchor, construction call, single-line handler, separator, usage. -/
def orderedLines : List Line :=
  [("for i := 0; i < b.N; i++ \x7b").data,
   ("conn := NewConnection(mockConn, config)").data,
   ("handler := func(req *Request, rw *ResponseWriter) error \x7b return nil \x7d").data,
   ("gap").data,
   ("conn.Serve(handler)").data]

theorem C5_witness :
    lookAhead orderedLines 0 20 1 none =
      (some (("handler := func(req *Request, rw *ResponseWriter) error \x7b return nil \x7d").data, 4), some 1) ∧
      (0 + 1 ≤ 1 ∧ 1 < 0 + 20 ∧ 1 < orderedLines.length ∧
        (∃ ln, orderedLines.get? 1 = some ln ∧ connOldPat <:+: ln) ∧
        (∀ m lm, 0 + 1 ≤ m → m ≤ 1 → orderedLines.get? m = some lm →
          ¬ handlerPat <:+: lm)) :=
  ⟨by rfl, C5_conn_before_handler orderedLines 0 1
    (some (("handler := func(req *Request, rw *ResponseWriter) error \x7b return nil \x7d").data, 4)) (by rfl)⟩

end ClaimC5

section ClaimC8

/-- C8 amended: the look-ahead window opened at anchor `i` consists of
the lines at indices `i + 1` through `i + 19` (the scan runs while
`j < i + 20`), not through `i + 20`: any reported handler-definition
line index and any reported construction-call index lie strictly below
`i + 20` and within the file. -/
theorem C8_window_bounds (lines : List Line) (i : Nat) :
    (∀ d s nres, lookAhead lines i 20 (i + 1) none = (some (d, s), nres) →
      ∃ j lj, i + 1 ≤ j ∧ j < i + 20 ∧ j < lines.length ∧
        lines.get? j = some lj ∧ handlerPat <:+: lj ∧
        extractHandler lines j = some (d, s)) ∧
    (∀ res n, lookAhead lines i 20 (i + 1) none = (res, some n) →
      i + 1 ≤ n ∧ n < i + 20 ∧ n < lines.length) := by
  constructor
  · intro d s nres h
    exact lookAhead_handler_found lines i 20 (i + 1) none d s nres h
  · intro res n h
    rcases lookAhead_conn_found lines i 20 (i + 1) none res n h with heq | hf
    · exact absurd heq (by simp)
    · exact ⟨hf.1, hf.2.1, hf.2.2.1⟩

theorem C8_witness :
    (∃ j lj, 0 + 1 ≤ j ∧ j < 0 + 20 ∧ j < orderedLines.length ∧
      orderedLines.get? j = some lj ∧ handlerPat <:+: lj ∧
      extractHandler orderedLines j =
        some (("handler := func(req *Request, rw *ResponseWriter) error \x7b return nil \x7d").data, 4)) ∧
    (0 + 1 ≤ 1 ∧ 1 < 0 + 20 ∧ 1 < orderedLines.length) :=
  ⟨(C8_window_bounds orderedLines 0).1
      (("handler := func(req *Request, rw *ResponseWriter) error \x7b return nil \x7d").data) 4 (some 1) (by rfl),
   (C8_window_bounds orderedLines 0).2
      (some (("handler := func(req *Request, rw *ResponseWriter) error \x7b return nil \x7d").data, 4)) 1 (by rfl)⟩

end ClaimC8

section ClaimC1Amended

/-- C1 amended: for an input containing an anchor line followed by the
old-shape construction-call line, a handler block that opens and closes
its braces on a single line (the shape the tool targets; multi-line
blocks are duplicated, see the counterexample), one separator line, and
the usage-call line two lines after the close of the block, the output places
the trimmed handler block immediately before the anchor followed by one
blank separator line and the original anchor line, the construction-call
line gains exactly one extra argument equal to the handler identifier,
the usage-call line loses exactly its argument, and every other line of
the file appears unchanged with no duplicated or missing lines. -/
theorem C1_single_line_block_rewrite
    (pre post : List Line) (anchorL connL connL2 handlerL gapL serveL serveL2 : Line)
    (connA connB serveA serveB : Line)
    (hconnDef : connL = connA ++ connOldPat ++ connB)
    (hconn2Def : connL2 = connA ++ connNewPat ++ connB)
    (hserveDef : serveL = serveA ++ serveOldPat ++ serveB)
    (hserve2Def : serveL2 = serveA ++ serveNewPat ++ serveB)
    (hPre : ∀ l ∈ pre, ¬ anchorPat <:+: l)
    (hPost : ∀ l ∈ post, ¬ anchorPat <:+: l)
    (hAnchor : anchorPat <:+: anchorL)
    (hConnFirst : ∀ p, p < connA.length → ¬ connOldPat <+: (connL.drop p))
    (hConnB : ¬ connOldPat <:+: connB)
    (hConnNoHandler : ¬ handlerPat <:+: connL)
    (hHandler : handlerPat <:+: handlerL)
    (hBrace : braceNet handlerL = 0)
    (hOpen : '\x7b' ∈ handlerL)
    (hGapSkip : ¬ handlerSkipPat <:+: gapL)
    (hGapServe : ¬ serveOldPat <:+: gapL)
    (hServeFirst : ∀ p, p < serveA.length → ¬ serveOldPat <+: (serveL.drop p))
    (hServeB : ¬ serveOldPat <:+: serveB)
    (hServeNoHandler : ¬ handlerSkipPat <:+: serveL)
    (hNl : ∀ l ∈ pre ++ [anchorL, connL, handlerL, gapL, serveL] ++ post,
      '\n' ∉ l) :
    fix_benchmark_pattern
        (joinLines (pre ++ [anchorL, connL, handlerL, gapL, serveL] ++ post)) =
      some (joinLines (pre ++ ['\t' :: pyStrip handlerL, [], anchorL, connL2,
        gapL, serveL2] ++ post)) := by
  have hconnE : connOldPat <:+: connL := by
    rw [hconnDef]; exact ⟨connA, connB, rfl⟩
  have hserveE : serveOldPat <:+: serveL := by
    rw [hserveDef]; exact ⟨serveA, serveB, rfl⟩
  have hskipH : handlerSkipPat <:+: handlerL :=
    (List.IsPrefix.isInfix (by decide)).trans hHandler
  set L := pre ++ [anchorL, connL, handlerL, gapL, serveL] ++ post with hL
  have hassoc : L = pre ++ ([anchorL, connL, handlerL, gapL, serveL] ++ post) := by
    rw [hL, List.append_assoc]
  have hLlen : L.length = pre.length + 5 + post.length := by
    rw [hL]; simp; omega
  have hLne : L ≠ [] := by rw [hL]; simp
  have hsplit : splitLines (joinLines L) = L := splitLines_joinLines L hLne hNl
  have hget0 : L.get? pre.length = some anchorL := by
    have h := get?_append_offset pre ([anchorL, connL, handlerL, gapL, serveL] ++ post) 0
    rw [← hassoc] at h
    simpa using h
  have hget1 : L.get? (pre.length + 1) = some connL := by
    have h := get?_append_offset pre ([anchorL, connL, handlerL, gapL, serveL] ++ post) 1
    rw [← hassoc] at h
    simpa using h
  have hget2 : L.get? (pre.length + 2) = some handlerL := by
    have h := get?_append_offset pre ([anchorL, connL, handlerL, gapL, serveL] ++ post) 2
    rw [← hassoc] at h
    simpa using h
  have hget3 : L.get? (pre.length + 2 + 1) = some gapL := by
    have h := get?_append_offset pre ([anchorL, connL, handlerL, gapL, serveL] ++ post) 3
    rw [← hassoc] at h
    rw [show pre.length + 2 + 1 = pre.length + 3 from by omega]
    simpa using h
  have hget4 : L.get? (pre.length + 2 + 1 + 1) = some serveL := by
    have h := get?_append_offset pre ([anchorL, connL, handlerL, gapL, serveL] ++ post) 4
    rw [← hassoc] at h
    rw [show pre.length + 2 + 1 + 1 = pre.length + 4 from by omega]
    simpa using h
  have hext : extractHandler L (pre.length + 2) = some (handlerL, pre.length + 2 + 2) := by
    unfold extractHandler
    rw [show (15 : Nat) = 14 + 1 from rfl]
    rw [braceLoop_step_close L (min (pre.length + 2 + 15) L.length) 14
      (pre.length + 2) 0 [] handlerL (by omega) hget2 ⟨by rw [hBrace]; simp, hOpen⟩]
    rw [List.nil_append, joinLines_single]
  have hLA : lookAhead L pre.length 20 (pre.length + 1) none =
      (some (handlerL, pre.length + 2 + 2), some (pre.length + 1)) := by
    rw [show (20 : Nat) = 19 + 1 from rfl]
    rw [lookAhead_step_conn L pre.length 19 (pre.length + 1) none connL hget1
      (by omega) (by omega) hConnNoHandler hconnE]
    rw [show pre.length + 1 + 1 = pre.length + 2 from by omega]
    rw [show (19 : Nat) = 18 + 1 from rfl]
    rw [lookAhead_step_handler L pre.length 18 (pre.length + 2)
      (some (pre.length + 1)) handlerL hget2 (by omega) (by omega) hHandler]
    rw [hext]
  have hconnRep : pyReplace connL connOldPat connNewPat = connL2 := by
    rw [hconnDef, hconn2Def]
    exact pyReplace_first connOldPat connNewPat (by decide) connA connB
      (fun p hp => by rw [← hconnDef]; exact hConnFirst p hp) hConnB
  have hserveRep : pyReplace serveL serveOldPat serveNewPat = serveL2 := by
    rw [hserveDef, hserve2Def]
    exact pyReplace_first serveOldPat serveNewPat (by decide) serveA serveB
      (fun p hp => by rw [← hserveDef]; exact hServeFirst p hp) hServeB
  have hrw : rewriteLoop L (pre.length + 2 + 2) (pre.length + 1)
      (pre.length + 2 + 2 + 1) (pre.length + 1)
      (pre ++ ['\t' :: pyStrip handlerL, [], anchorL]) =
      some (pre ++ ['\t' :: pyStrip handlerL, [], anchorL, connL2, gapL, serveL2]) := by
    rw [rewriteLoop_step_conn L (pre.length + 2 + 2) (pre.length + 1)
      (pre.length + 2 + 2) (pre ++ ['\t' :: pyStrip handlerL, [], anchorL])
      connL (by omega) hget1]
    rw [hconnRep]
    rw [show pre.length + 1 + 1 = pre.length + 2 from by omega]
    rw [rewriteLoop_unfuel (pre.length + 2 + 2) (pre.length + 2 + 1) (by omega)]
    rw [rewriteLoop_step_skip L (pre.length + 2 + 2) (pre.length + 1)
      (pre.length + 2 + 1) (pre.length + 2)
      (pre ++ ['\t' :: pyStrip handlerL, [], anchorL] ++ [connL2])
      handlerL (by omega) hget2 (by omega) hskipH]
    rw [rewriteLoop_step_plain L (pre.length + 2 + 2) (pre.length + 1)
      (pre.length + 2) (pre.length + 2 + 1)
      (pre ++ ['\t' :: pyStrip handlerL, [], anchorL] ++ [connL2])
      gapL (by omega) hget3 (by omega) hGapSkip hGapServe]
    rw [rewriteLoop_unfuel (pre.length + 2) (pre.length + 1) (by omega)]
    rw [rewriteLoop_step_serve L (pre.length + 2 + 2) (pre.length + 1)
      (pre.length + 1) (pre.length + 2 + 1 + 1)
      (pre ++ ['\t' :: pyStrip handlerL, [], anchorL] ++ [connL2] ++ [gapL])
      serveL (by omega) hget4 (by omega) hServeNoHandler hserveE]
    rw [hserveRep]
    rw [rewriteLoop_done L (pre.length + 2 + 2) (pre.length + 1) pre.length
      (pre.length + 2 + 1 + 1 + 1) _ (by omega)]
    simp [List.append_assoc]
  have htake : ([] : List Line) ++ (L.drop 0).take pre.length = pre := by
    rw [List.nil_append, List.drop_zero, hassoc, List.take_left]
  have hanchPre : ∀ k, 0 ≤ k → k < 0 + pre.length → anchorAt L k = false := by
    intro k _ hk
    have h1 : L.get? k = pre.get? k := by
      rw [hassoc]
      simp [List.get?_eq_getElem?,
        List.getElem?_append_left (show k < pre.length by omega)]
    cases hpk : pre.get? k with
    | none => exact absurd (List.get?_eq_none.mp hpk) (by omega)
    | some l =>
      unfold anchorAt
      rw [h1, hpk]
      exact decide_eq_false (hPre l (List.get?_mem hpk))
  have hanchPost : ∀ k, pre.length + 2 + 2 + 1 ≤ k → k < L.length →
      anchorAt L k = true → matchFound L k = false := by
    intro k hk1 hk2 hk3
    exfalso
    have e5 : ([anchorL, connL, handlerL, gapL, serveL] : List Line).length = 5 := rfl
    have h1 : L.get? k = post.get? (k - pre.length - 5) := by
      rw [hassoc, get?_append_right_len pre _ k (by omega),
        get?_append_right_len _ post _ (by rw [e5]; omega), e5]
    cases hpk : post.get? (k - pre.length - 5) with
    | none =>
      unfold anchorAt at hk3
      rw [h1, hpk] at hk3
      simp at hk3
    | some l =>
      unfold anchorAt at hk3
      rw [h1, hpk] at hk3
      simp only [decide_eq_true_eq] at hk3
      exact hPost l (List.get?_mem hpk) hk3
  have hdropPost : L.drop (pre.length + 2 + 2 + 1) = post := by
    rw [hassoc]
    rw [show pre.length + 2 + 2 + 1 = pre.length + 5 from by omega]
    rw [List.drop_append 5]
    rfl
  show (mainLoop (splitLines (joinLines L)) (splitLines (joinLines L)).length 0 []).map
    joinLines = _
  rw [hsplit, hLlen]
  rw [show pre.length + 5 + post.length = pre.length + ((4 + post.length) + 1) from by omega]
  rw [mainLoop_skip L pre.length ((4 + post.length) + 1) 0 [] (by omega) hanchPre]
  rw [show (0 : Nat) + pre.length = pre.length from by omega]
  rw [htake]
  rw [mainLoop_rewrite_branch L (4 + post.length) pre.length pre anchorL handlerL
    (pre.length + 2 + 2) (pre.length + 1) hget0 hAnchor hLA
    ⟨List.ne_nil_of_mem hOpen, by omega⟩]
  rw [hrw]
  show (mainLoop L (4 + post.length) (pre.length + 2 + 2 + 1)
      (pre ++ ['\t' :: pyStrip handlerL, [], anchorL, connL2, gapL, serveL2])).map
    joinLines = _
  rw [mainLoop_verbatim L (4 + post.length) (pre.length + 2 + 2 + 1)
    (pre ++ ['\t' :: pyStrip handlerL, [], anchorL, connL2, gapL, serveL2])
    (by omega) hanchPost]
  rw [hdropPost]
  rfl

def c1wPre : List Line := [("func BenchmarkConnection(b *testing.B) \x7b").data]

def c1wPost : List Line := [("\x7d").data]

def c1wAnchor : Line := ("\tfor i := 0; i < b.N; i++ \x7b").data

def c1wConn : Line := ("\t\tconn := NewConnection(mockConn, config)").data

def c1wConn2 : Line := ("\t\tconn := NewConnection(mockConn, config, handler)").data

def c1wHandler : Line :=
  ("\t\thandler := func(req *Request, rw *ResponseWriter) error \x7b return nil \x7d").data

def c1wServe : Line := ("\t\tconn.Serve(handler)").data

def c1wServe2 : Line := ("\t\tconn.Serve()").data

theorem C1_witness :
    fix_benchmark_pattern
        (joinLines (c1wPre ++ [c1wAnchor, c1wConn, c1wHandler, [], c1wServe] ++ c1wPost)) =
      some (joinLines (c1wPre ++ ['\t' :: pyStrip c1wHandler, [], c1wAnchor,
        c1wConn2, [], c1wServe2] ++ c1wPost)) :=
  C1_single_line_block_rewrite c1wPre c1wPost c1wAnchor c1wConn c1wConn2
    c1wHandler [] c1wServe c1wServe2
    (("\t\tconn := ").data) [] (("\t\t").data) []
    (by rfl) (by rfl) (by rfl) (by rfl)
    (by decide) (by decide) (by decide) (by decide) (by decide) (by decide)
    (by decide) (by decide) (by decide) (by decide) (by decide) (by decide)
    (by decide) (by decide) (by decide)

end ClaimC1Amended

section ClaimC10

def c10anchor : Line := ("\tfor i := 0; i < b.N; i++ \x7b").data

def c10conn : Line := ("\tconn := NewConnection(mockConn, config)").data

def c10conn2 : Line := ("\tconn := NewConnection(mockConn, config, handler)").data

def c10core : Line :=
  ("handler := func(req *Request, rw *ResponseWriter) error \x7b").data

def c10last : Line := ("\x7d; _ = T\x7b\x7d").data

def c10serve : Line := ("\tconn.Serve(handler)").data

def c10serve2 : Line := ("\tconn.Serve()").data

/-- The three-line handler block of the C10 scenario, as the joined text
the extraction loop produces: an opening line with arbitrary indentation
`ind`, an arbitrary interior line `mid`, and a closing line. -/
def c10block (ind mid : Line) : Line := joinLines [ind ++ c10core, mid, c10last]

/-- C10: whenever a rewrite occurs, the relocated handler block is
emitted as one joined string, stripped of leading and trailing
whitespace, with exactly one tab prepended: for an arbitrary all-blank
indentation `ind` on the first line of the handler and an arbitrary interior
line `mid`, the emitted block starts with one tab directly followed by
the unindented first line, while the interior line appears verbatim with
its original indentation. -/
theorem C10_relocated_block_indentation (ind mid : Line)
    (hInd : ∀ c ∈ ind, c = ' ' ∨ c = '\t')
    (hMidNet : braceNet mid = 0)
    (hMidSkip : ¬ handlerSkipPat <:+: mid)
    (hMidServe : ¬ serveOldPat <:+: mid)
    (hMidNl : '\n' ∉ mid) :
    fix_benchmark_pattern (joinLines [("x").data, c10anchor, c10conn,
        ind ++ c10core, mid, c10last, [], c10serve, ("z").data]) =
      some (joinLines [("x").data,
        '\t' :: (c10core ++ '\n' :: (mid ++ '\n' :: c10last)), [],
        c10anchor, c10conn2, mid, c10last, [], c10serve2, ("z").data]) := by
  set L := [("x").data, c10anchor, c10conn, ind ++ c10core, mid, c10last, [],
    c10serve, ("z").data] with hLdef
  have hLlen : L.length = 9 := by rw [hLdef]; rfl
  have hIndWS : ∀ c ∈ ind, pyWS c = true := by
    intro c hc
    rcases hInd c hc with h | h <;> simp [pyWS, h]
  have hIndNl : '\n' ∉ ind := by
    intro hmem
    rcases hInd _ hmem with h | h <;> exact absurd h (by decide)
  have hNlAll : ∀ l ∈ L, '\n' ∉ l := by
    intro l hl
    rw [hLdef] at hl
    simp only [List.mem_cons, List.not_mem_nil, or_false] at hl
    rcases hl with rfl | rfl | rfl | rfl | rfl | rfl | rfl | rfl | rfl
    · decide
    · decide
    · decide
    · simp only [List.mem_append]
      rintro (h | h)
      · exact hIndNl h
      · exact absurd h (by decide)
    · exact hMidNl
    · decide
    · simp
    · decide
    · decide
  have hsplit : splitLines (joinLines L) = L :=
    splitLines_joinLines L (by rw [hLdef]; simp) hNlAll
  have hg0 : L.get? 0 = some (("x").data) := by rw [hLdef]; rfl
  have hgA : L.get? 1 = some c10anchor := by rw [hLdef]; rfl
  have hgConn : L.get? (1 + 1) = some c10conn := by rw [hLdef]; rfl
  have hgConn2 : L.get? 2 = some c10conn := by rw [hLdef]; rfl
  have hgFirst : L.get? 3 = some (ind ++ c10core) := by rw [hLdef]; rfl
  have hgFirstB : L.get? (2 + 1) = some (ind ++ c10core) := by rw [hLdef]; rfl
  have hgMid : L.get? 4 = some mid := by rw [hLdef]; rfl
  have hgMidB : L.get? (2 + 1 + 1) = some mid := by rw [hLdef]; rfl
  have hgLast : L.get? 5 = some c10last := by rw [hLdef]; rfl
  have hgLastB : L.get? (2 + 1 + 1 + 1) = some c10last := by rw [hLdef]; rfl
  have hgGapB : L.get? (2 + 1 + 1 + 1 + 1) = some ([] : Line) := by rw [hLdef]; rfl
  have hgServeB : L.get? (2 + 1 + 1 + 1 + 1 + 1) = some c10serve := by rw [hLdef]; rfl
  have hgZ : L.get? (7 + 1) = some (("z").data) := by rw [hLdef]; rfl
  have hgNone : L.get? (7 + 1 + 1) = none := by rw [hLdef]; rfl
  have hnet3 : braceNet (ind ++ c10core) = 1 := by
    rw [braceNet_append, braceNet_of_blank ind hInd]
    decide
  have hH3 : handlerPat <:+: ind ++ c10core :=
    ⟨ind, (" error \x7b").data, by rw [List.append_assoc]; rfl⟩
  have hskip10 : handlerSkipPat <:+: ind ++ c10core :=
    ⟨ind, ("(req *Request, rw *ResponseWriter) error \x7b").data,
      by rw [List.append_assoc]; rfl⟩
  have hblock : c10block ind mid =
      ind ++ (c10core ++ '\n' :: (mid ++ '\n' :: c10last)) := by
    simp [c10block, joinLines, List.intercalate, List.intersperse,
      List.append_assoc]
  have hblockNe : c10block ind mid ≠ [] := by
    rw [hblock]
    intro hcon
    rcases List.append_eq_nil.mp hcon with ⟨-, h2⟩
    rcases List.append_eq_nil.mp h2 with ⟨h3, -⟩
    exact absurd h3 (by decide)
  have hdw : List.dropWhile pyWS (c10core ++ '\n' :: (mid ++ '\n' :: c10last)) =
      c10core ++ '\n' :: (mid ++ '\n' :: c10last) := by
    rw [show c10core ++ '\n' :: (mid ++ '\n' :: c10last) =
      'h' :: ((("andler := func(req *Request, rw *ResponseWriter) error \x7b").data) ++
        '\n' :: (mid ++ '\n' :: c10last)) from rfl]
    rw [dropWhile_cons_of_neg pyWS 'h' _ (by decide)]
  have hrt : (((c10core ++ '\n' :: (mid ++ '\n' :: c10last)).reverse).dropWhile
      pyWS).reverse = c10core ++ '\n' :: (mid ++ '\n' :: c10last) := by
    rw [show c10core ++ '\n' :: (mid ++ '\n' :: c10last) =
      (c10core ++ ('\n' :: mid) ++ ['\n']) ++ c10last from by
        simp [List.append_assoc]]
    exact rstrip_append_of_last (c10core ++ ('\n' :: mid) ++ ['\n']) c10last
      '\x7d' (("\x7bT = _ ;\x7d").data) (by decide) (by decide)
  have hstrip : pyStrip (c10block ind mid) =
      c10core ++ '\n' :: (mid ++ '\n' :: c10last) := by
    unfold pyStrip
    rw [hblock, dropWhile_append_ws ind _ hIndWS, hdw, hrt]
  have hext10 : extractHandler L 3 = some (c10block ind mid, 7) := by
    unfold extractHandler
    rw [show (15 : Nat) = 14 + 1 from rfl]
    rw [braceLoop_step_cont L (min (3 + 15) L.length) 14 3 0 [] (ind ++ c10core)
      (by omega) hgFirst (by
        intro hcon
        rw [hnet3] at hcon
        exact absurd hcon.1 (by decide))]
    rw [hnet3, show (0 : Int) + 1 = 1 from by decide,
      show (3 : Nat) + 1 = 4 from by omega]
    rw [show (14 : Nat) = 13 + 1 from rfl]
    rw [braceLoop_step_cont L (min (3 + 15) L.length) 13 4 1 ([] ++ [ind ++ c10core])
      mid (by omega) hgMid (by
        intro hcon
        rw [hMidNet] at hcon
        exact absurd hcon.1 (by decide))]
    rw [hMidNet, show (1 : Int) + 0 = 1 from by decide,
      show (4 : Nat) + 1 = 5 from by omega]
    rw [show (13 : Nat) = 12 + 1 from rfl]
    rw [braceLoop_step_close L (min (3 + 15) L.length) 12 5 1
      (([] ++ [ind ++ c10core]) ++ [mid]) c10last (by omega) hgLast
      ⟨by decide, by decide⟩]
    rfl
  have hLA10 : lookAhead L 1 20 (1 + 1) none =
      (some (c10block ind mid, 7), some 2) := by
    rw [show (20 : Nat) = 19 + 1 from rfl]
    rw [lookAhead_step_conn L 1 19 (1 + 1) none c10conn hgConn (by omega)
      (by omega) (by decide) (by decide)]
    rw [show (1 : Nat) + 1 + 1 = 3 from by omega]
    rw [show (19 : Nat) = 18 + 1 from rfl]
    rw [lookAhead_step_handler L 1 18 3 (some (1 + 1)) (ind ++ c10core) hgFirst
      (by omega) (by omega) hH3]
    rw [hext10]
  have hconnRep10 : pyReplace c10conn connOldPat connNewPat = c10conn2 := by rfl
  have hserveRep10 : pyReplace c10serve serveOldPat serveNewPat = c10serve2 := by rfl
  have hrw10 : rewriteLoop L 7 2 (7 + 1) 2
      ([("x").data] ++ ['\t' :: (c10core ++ '\n' :: (mid ++ '\n' :: c10last)), [],
        c10anchor]) =
      some [("x").data, '\t' :: (c10core ++ '\n' :: (mid ++ '\n' :: c10last)), [],
        c10anchor, c10conn2, mid, c10last, [], c10serve2] := by
    rw [rewriteLoop_step_conn L 7 2 7
      ([("x").data] ++ ['\t' :: (c10core ++ '\n' :: (mid ++ '\n' :: c10last)), [],
        c10anchor]) c10conn (by omega) hgConn2]
    rw [hconnRep10]
    rw [rewriteLoop_unfuel 7 6 (by omega)]
    rw [rewriteLoop_step_skip L 7 2 6 (2 + 1) _ (ind ++ c10core) (by omega)
      hgFirstB (by omega) hskip10]
    rw [rewriteLoop_unfuel 6 5 (by omega)]
    rw [rewriteLoop_step_plain L 7 2 5 (2 + 1 + 1) _ mid (by omega) hgMidB
      (by omega) hMidSkip hMidServe]
    rw [rewriteLoop_unfuel 5 4 (by omega)]
    rw [rewriteLoop_step_plain L 7 2 4 (2 + 1 + 1 + 1) _ c10last (by omega)
      hgLastB (by omega) (by decide) (by decide)]
    rw [rewriteLoop_unfuel 4 3 (by omega)]
    rw [rewriteLoop_step_plain L 7 2 3 (2 + 1 + 1 + 1 + 1) _ ([] : Line)
      (by omega) hgGapB (by omega) (by decide) (by decide)]
    rw [rewriteLoop_unfuel 3 2 (by omega)]
    rw [rewriteLoop_step_serve L 7 2 2 (2 + 1 + 1 + 1 + 1 + 1) _ c10serve
      (by omega) hgServeB (by omega) (by decide) (by decide)]
    rw [hserveRep10]
    rw [rewriteLoop_unfuel 2 1 (by omega)]
    rw [rewriteLoop_done L 7 2 1 (2 + 1 + 1 + 1 + 1 + 1 + 1) _ (by omega)]
    rfl
  show (mainLoop (splitLines (joinLines L)) (splitLines (joinLines L)).length
    0 []).map joinLines = _
  rw [hsplit, hLlen]
  rw [show (9 : Nat) = 8 + 1 from rfl]
  rw [mainLoop_step_plain L 8 0 [] (("x").data) hg0 (by decide)]
  rw [List.nil_append, show (0 : Nat) + 1 = 1 from rfl]
  rw [show (8 : Nat) = 7 + 1 from rfl]
  rw [mainLoop_rewrite_branch L 7 1 [("x").data] c10anchor (c10block ind mid)
    7 2 hgA (by decide) hLA10 ⟨hblockNe, by omega⟩]
  rw [hstrip]
  rw [show (1 : Nat) + 1 = 2 from rfl]
  rw [hrw10]
  show (mainLoop L 7 (7 + 1) [("x").data,
    '\t' :: (c10core ++ '\n' :: (mid ++ '\n' :: c10last)), [], c10anchor,
    c10conn2, mid, c10last, [], c10serve2]).map joinLines = _
  rw [mainLoop_unfuel 7 6 (by omega)]
  rw [mainLoop_step_plain L 6 (7 + 1) _ (("z").data) hgZ (by decide)]
  rw [mainLoop_unfuel 6 5 (by omega)]
  rw [mainLoop_step_none L 5 (7 + 1 + 1) _ hgNone]
  rfl

theorem C10_witness :
    fix_benchmark_pattern (joinLines [("x").data, c10anchor, c10conn,
        (("  ").data) ++ c10core, ("\t\treturn nil").data, c10last, [],
        c10serve, ("z").data]) =
      some (joinLines [("x").data,
        '\t' :: (c10core ++ '\n' :: ((("\t\treturn nil").data) ++ '\n' :: c10last)),
        [], c10anchor, c10conn2, ("\t\treturn nil").data, c10last, [],
        c10serve2, ("z").data]) :=
  C10_relocated_block_indentation (("  ").data) (("\t\treturn nil").data)
    (by decide) (by decide) (by decide) (by decide) (by decide)

end ClaimC10

end Watt
